import Mathlib

/-!
# Contact manager: validation and REST handlers

A shallow embedding of `server.js` (the Express handlers over the SQLite table
`contacts`) and of the validation functions of `script.js` (the browser client).

* A JavaScript string is modelled by a Lean `String`, read as its list of characters.
  Both regular expressions of the source are sequences of quantified single-character
  classes between `^` and `$`, with no flags; a character outside the Basic Multilingual
  Plane is two UTF-16 units that both fall in `[^\s@]` and in no other class used here, so
  matching per character and per UTF-16 unit agree.
* The table is a list of rows together with the `AUTOINCREMENT` high-water mark. Row ids
  are natural numbers: the 64-bit limit of a row id is out of reach of the handlers, which
  only ever hand out the next id.
* The `err` branches of the callbacks (storage failures) have no counterpart: every
  statement of the model succeeds.
* In the Get and Delete handlers the route parameter `:id` is only compared with the
  column `id` and is modelled by the integer SQLite compares the column against; a
  parameter that denotes no integer behaves like an id absent from the table.
* The Update handler also answers `parseInt(id)`, so there the route parameter is the raw
  string; what SQLite and `parseInt` make of a string lies outside the repository and is
  taken as a parameter (`Runtime`).
-/

namespace ContactManager

/-! ## Regular expressions of the source -/

/-- The class `\s` of ECMAScript: WhiteSpace and LineTerminator code points. -/
def isWhiteSpace (c : Char) : Bool :=
  let n := c.toNat
  n == 0x09 || n == 0x0A || n == 0x0B || n == 0x0C || n == 0x0D || n == 0x20 ||
  n == 0xA0 || n == 0x1680 || (0x2000 ≤ n && n ≤ 0x200A) ||
  n == 0x2028 || n == 0x2029 || n == 0x202F || n == 0x205F || n == 0x3000 || n == 0xFEFF

/-- One quantified character class: `cls{lo,hi}`, with `hi = none` for no upper bound. -/
structure Piece where
  cls : Char → Bool
  lo : Nat
  hi : Option Nat

/-- Whether `k` repetitions are allowed by the quantifier of the piece. -/
def Piece.fits (p : Piece) (k : Nat) : Bool :=
  p.lo ≤ k && (match p.hi with
    | none => true
    | some h => k ≤ h)

/-- The piece `cls` (exactly once). -/
def Piece.one (cls : Char → Bool) : Piece := ⟨cls, 1, some 1⟩

/-- The piece `cls?`. -/
def Piece.optional (cls : Char → Bool) : Piece := ⟨cls, 0, some 1⟩

/-- The piece `cls+`. -/
def Piece.plus (cls : Char → Bool) : Piece := ⟨cls, 1, none⟩

/-- The piece `cls{lo,hi}`. -/
def Piece.between (cls : Char → Bool) (lo hi : Nat) : Piece := ⟨cls, lo, some hi⟩

/-- Backtracking match of `^ p₁ p₂ … pₙ $` against the whole input: every admissible
number of repetitions of the first piece is tried, the rest is matched against what
remains, and `$` succeeds only at the end of the input. -/
def matchPieces : List Piece → List Char → Bool
  | [], s => s.isEmpty
  | p :: ps, s =>
    (List.range (s.length + 1)).any fun k =>
      p.fits k && (s.take k).all p.cls && matchPieces ps (s.drop k)

/-- `RegExp.prototype.test` for an anchored, flagless pattern. -/
def test (re : List Piece) (s : String) : Bool := matchPieces re s.toList

/-- `String.prototype.replace(/[cls]/g, '')`: every character of the class is removed. -/
def removeAll (cls : Char → Bool) (s : String) : String :=
  String.mk (s.toList.filter fun c => !cls c)

/-- The class `[^\s@]`. -/
def notSpaceAt (c : Char) : Bool := !(isWhiteSpace c || c == '@')

/-- The class `[1-9]`. -/
def digit19 (c : Char) : Bool := '1'.toNat ≤ c.toNat && c.toNat ≤ '9'.toNat

/-- The class `[\d]`. -/
def digit (c : Char) : Bool := '0'.toNat ≤ c.toNat && c.toNat ≤ '9'.toNat

/-- The class `[\s\-\(\)]`. -/
def formatting (c : Char) : Bool := isWhiteSpace c || c == '-' || c == '(' || c == ')'

/-- The pattern `/^[^\s@]+@[^\s@]+\.[^\s@]+$/`. -/
def emailRegex : List Piece :=
  [Piece.plus notSpaceAt, Piece.one (· == '@'), Piece.plus notSpaceAt,
   Piece.one (· == '.'), Piece.plus notSpaceAt]

/-- The pattern `/^[\+]?[1-9][\d]{3,14}$/`. -/
def phoneRegex : List Piece :=
  [Piece.optional (· == '+'), Piece.one digit19, Piece.between digit 3 14]

namespace Server

/-- `isValidEmail` of `server.js`. -/
def isValidEmail (email : String) : Bool := test emailRegex email

/-- `isValidPhone` of `server.js`. -/
def isValidPhone (phone : String) : Bool := test phoneRegex (removeAll formatting phone)

end Server

namespace Client

/-- `isValidEmail` of `script.js`. -/
def isValidEmail (email : String) : Bool := test emailRegex email

/-- `isValidPhone` of `script.js`. -/
def isValidPhone (phone : String) : Bool := test phoneRegex (removeAll formatting phone)

end Client


/-! ## The shapes the specification describes -/

/-- Whitespace, hyphen and parentheses are the formatting characters the phone check drops. -/
def stripFormatting (p : String) : List Char :=
  p.toList.filter fun c => !(isWhiteSpace c) && c ∉ ['-', '(', ')']

/-- Spec wording: only the space character, the hyphen and the parentheses are dropped. -/
def stripSpaceHyphenParen (p : String) : List Char :=
  p.toList.filter fun c => c ∉ [' ', '-', '(', ')']

/-- Spec wording: an optional leading `+`, one digit 1-9, then 3 to 14 further decimal
digits and nothing else. -/
def PhoneShape (s : List Char) : Prop :=
  ∃ sign d ds, s = sign ++ d :: ds ∧ (sign = [] ∨ sign = ['+']) ∧
    d ∈ ['1', '2', '3', '4', '5', '6', '7', '8', '9'] ∧
    (∀ c ∈ ds, c ∈ ['0', '1', '2', '3', '4', '5', '6', '7', '8', '9']) ∧
    3 ≤ ds.length ∧ ds.length ≤ 14

/-- Spec wording: a non-empty part holding neither a whitespace character nor `@`. -/
def EmailPart (l : String) : Prop :=
  l ≠ "" ∧ ∀ c ∈ l.toList, isWhiteSpace c = false ∧ c ≠ '@'

/-- Spec wording: `l + "@" + d + "." + t` with the three parts as in `EmailPart`. -/
def EmailShape (e : String) : Prop :=
  ∃ l d t : String, e = l ++ "@" ++ d ++ "." ++ t ∧ EmailPart l ∧ EmailPart d ∧ EmailPart t

/-! ## The table `contacts` -/

/-- The five fields of a request body (`req.body`), all strings. -/
structure ContactData where
  firstName : String
  lastName : String
  address : String
  email : String
  phone : String
  deriving DecidableEq, Repr

/-- A row of `contacts`: `id INTEGER PRIMARY KEY AUTOINCREMENT`, the five text columns and
`created_at DATETIME DEFAULT CURRENT_TIMESTAMP` (the clock reading at insertion). -/
structure Contact where
  id : Nat
  firstName : String
  lastName : String
  address : String
  email : String
  phone : String
  created_at : Nat
  deriving DecidableEq, Repr

/-- The database: the rows of `contacts` in insertion order and the largest row id ever
handed out (what `AUTOINCREMENT` keeps in `sqlite_sequence`). -/
structure Db where
  rows : List Contact
  seq : Nat
  deriving DecidableEq, Repr

/-- The table right after `CREATE TABLE IF NOT EXISTS contacts`. -/
def Db.empty : Db := ⟨[], 0⟩

/-- The largest `id` in the table, `0` when it is empty. -/
def Db.maxId (db : Db) : Nat := db.rows.foldl (fun m c => max m c.id) 0

/-- The id `AUTOINCREMENT` gives the next row: one more than the largest id that is or
ever was in the table. -/
def Db.nextId (db : Db) : Nat := max db.seq db.maxId + 1

/-- `SELECT * FROM contacts WHERE id = ?` through `db.get`: the first matching row. The
route parameter is modelled by the integer it is compared as. -/
def Db.selectById (db : Db) (id : Nat) : Option Contact :=
  db.rows.find? fun c => c.id == id

/-- `SELECT id FROM contacts WHERE email = ?` through `db.get`. -/
def Db.selectIdByEmail (db : Db) (email : String) : Option Nat :=
  (db.rows.find? fun c => c.email == email).map (·.id)

/-- `SELECT id FROM contacts WHERE email = ? AND id != ?` through `db.get`; `id` is the row
id the text parameter compares equal to, `none` when it compares equal to no row id. -/
def Db.selectIdByEmailExcept (db : Db) (email : String) (id : Option Nat) : Option Nat :=
  (db.rows.find? fun c => c.email == email && some c.id != id).map (·.id)

/-- `INSERT INTO contacts (firstName, lastName, address, email, phone) VALUES (…)`:
the new table and `this.lastID`. -/
def Db.insert (db : Db) (now : Nat) (d : ContactData) : Db × Nat :=
  let id := db.nextId
  (⟨db.rows ++ [⟨id, d.firstName, d.lastName, d.address, d.email, d.phone, now⟩], id⟩, id)

/-- The `SET` clause of the `UPDATE`: the five text columns are overwritten. -/
def Contact.set (c : Contact) (d : ContactData) : Contact :=
  { c with firstName := d.firstName, lastName := d.lastName, address := d.address,
           email := d.email, phone := d.phone }

/-- `UPDATE contacts SET … WHERE id = ?`: the new table and `this.changes`; `id` as in
`Db.selectIdByEmailExcept`. -/
def Db.update (db : Db) (id : Option Nat) (d : ContactData) : Db × Nat :=
  (⟨db.rows.map fun c => if some c.id == id then c.set d else c, db.seq⟩,
   (db.rows.filter fun c => some c.id == id).length)

/-- `DELETE FROM contacts WHERE id = ?`: the new table and `this.changes`. -/
def Db.delete (db : Db) (id : Nat) : Db × Nat :=
  (⟨db.rows.filter fun c => !(c.id == id), db.seq⟩,
   (db.rows.filter fun c => c.id == id).length)

/-! ## The handlers of `server.js` -/

/-- The two library functions the Update handler hands the raw route string to, both
outside the repository: `rowid` is the row id SQLite finds a text parameter equal to when
it compares it with the `INTEGER` column `id` (`none` when it is equal to no row id), and
`parseInt` is the JavaScript function (`none` for `NaN`). -/
structure Runtime where
  rowid : String → Option Nat
  parseInt : String → Option Int

/-- A JSON response body. `contact` is the object `{id, firstName, …}` of the Create answer,
with `this.lastID`; `updated` is the same object in the Update answer, with
`parseInt(id)`. -/
inductive Body where
  | error (msg : String)
  | message (msg : String)
  | contact (id : Nat) (data : ContactData)
  | updated (id : Option Int) (data : ContactData)
  | row (c : Contact)
  deriving DecidableEq, Repr

/-- What `res.status(…).json(…)` sends. -/
structure Response where
  status : Nat
  body : Body
  deriving DecidableEq, Repr

namespace Server

/-- The validation block that opens both `app.post('/api/contacts')` and
`app.put('/api/contacts/:id')`: the first failing check answers 400; `none` when the
handler goes on. For a string `s`, `!s` holds exactly when `s` is empty. -/
def validation (b : ContactData) : Option Response :=
  if b.firstName == "" || b.lastName == "" || b.address == "" || b.email == "" ||
      b.phone == "" then
    some ⟨400, .error "All fields are required"⟩
  else if !isValidEmail b.email then
    some ⟨400, .error "Invalid email format"⟩
  else if !isValidPhone b.phone then
    some ⟨400, .error "Invalid phone number format"⟩
  else
    none

/-- `app.get('/api/contacts/:id')`. -/
def getContact (db : Db) (id : Nat) : Response :=
  match db.selectById id with
  | none => ⟨404, .error "Contact not found"⟩
  | some row => ⟨200, .row row⟩

/-- `app.post('/api/contacts')`. -/
def postContact (db : Db) (now : Nat) (b : ContactData) : Db × Response :=
  match validation b with
  | some res => (db, res)
  | none =>
    match db.selectIdByEmail b.email with
    | some _ => (db, ⟨400, .error "Email already exists"⟩)
    | none =>
      let (db1, lastID) := db.insert now b
      (db1, ⟨201, .contact lastID b⟩)

/-- `app.put('/api/contacts/:id')`; `id` is the raw route string, bound as a text parameter
in both statements and passed to `parseInt` for the answer. -/
def putContact (rt : Runtime) (db : Db) (id : String) (b : ContactData) : Db × Response :=
  match validation b with
  | some res => (db, res)
  | none =>
    match db.selectIdByEmailExcept b.email (rt.rowid id) with
    | some _ => (db, ⟨400, .error "Email already exists"⟩)
    | none =>
      let (db1, changes) := db.update (rt.rowid id) b
      if changes == 0 then (db1, ⟨404, .error "Contact not found"⟩)
      else (db1, ⟨200, .updated (rt.parseInt id) b⟩)

/-- `app.delete('/api/contacts/:id')`. -/
def deleteContact (db : Db) (id : Nat) : Db × Response :=
  let (db1, changes) := db.delete id
  if changes == 0 then (db1, ⟨404, .error "Contact not found"⟩)
  else (db1, ⟨200, .message "Contact deleted successfully"⟩)

/-- A mutating request. -/
inductive Request where
  | create (now : Nat) (b : ContactData)
  | update (id : String) (b : ContactData)
  | delete (id : Nat)

/-- The table after one request. -/
def step (rt : Runtime) (db : Db) : Request → Db
  | .create now b => (postContact db now b).1
  | .update id b => (putContact rt db id b).1
  | .delete id => (deleteContact db id).1

/-- The table after a sequence of requests, served one after the other. -/
def run (rt : Runtime) (db : Db) (reqs : List Request) : Db := reqs.foldl (step rt) db

end Server

namespace Client

/-- `validateForm` of `script.js`; `data` has the five keys `handleFormSubmit` gives it,
and `showFieldError` only touches the page. -/
def validateForm (data : ContactData) : Bool :=
  let isValid :=
    [data.firstName, data.lastName, data.address, data.email, data.phone].foldl
      (fun isValid v => if v == "" then false else isValid) true
  let isValid := if data.email != "" && !isValidEmail data.email then false else isValid
  let isValid := if data.phone != "" && !isValidPhone data.phone then false else isValid
  isValid

end Client

/-- No two rows with different ids hold the same email. -/
def EmailsUnique (db : Db) : Prop :=
  ∀ a ∈ db.rows, ∀ b ∈ db.rows, a.id ≠ b.id → a.email ≠ b.email

/-- The body of the example of the specification. -/
def ann : ContactData := ⟨"Ann", "Lee", "1 Main St", "ann@example.com", "+12025550123"⟩

/-- The row Create stores for `ann` in the empty table at clock reading `0`. -/
def annRow : Contact := ⟨1, "Ann", "Lee", "1 Main St", "ann@example.com", "+12025550123", 0⟩

/-- A second row, with another email. -/
def bobRow : Contact := ⟨2, "Bob", "Ray", "2 Side St", "bob@example.com", "+12025550199", 3⟩

/-- A table of two contacts. -/
def twoContacts : Db := ⟨[annRow, bobRow], 2⟩

/-- Route strings of the examples, each with the row id SQLite compares it as and the value
of `parseInt`: the text `20e-1` is the number 2 to SQLite and 20 to `parseInt`. -/
def sampleRoutes : List (String × Nat × Int) :=
  [("1", 1, 1), ("2", 2, 2), ("7", 7, 7), ("20e-1", 2, 20)]

/-- A runtime that reads the strings of `sampleRoutes` as listed there; it stands for no
reading of any other string, and only the examples use it. -/
def sampleRuntime : Runtime :=
  ⟨fun s => (sampleRoutes.lookup s).map (·.1), fun s => (sampleRoutes.lookup s).map (·.2)⟩

/-! ## Matching lemmas -/

theorem matchPieces_nil (s : List Char) : matchPieces [] s = true ↔ s = [] := by
  cases s <;> simp [matchPieces]

theorem matchPieces_cons (p : Piece) (ps : List Piece) (s : List Char) :
    matchPieces (p :: ps) s = true ↔
      ∃ a b, s = a ++ b ∧ p.fits a.length = true ∧ (∀ c ∈ a, p.cls c = true) ∧
        matchPieces ps b = true := by
  constructor
  · intro h
    simp only [matchPieces, List.any_eq_true, List.mem_range, Bool.and_eq_true,
      List.all_eq_true] at h
    obtain ⟨k, _, ⟨hfit, hall⟩, hrest⟩ := h
    refine ⟨s.take k, s.drop k, (List.take_append_drop k s).symm, ?_, hall, hrest⟩
    by_cases hk : k ≤ s.length
    · simpa [List.length_take, Nat.min_eq_left hk] using hfit
    · omega
  · rintro ⟨a, b, rfl, hfit, hall, hrest⟩
    simp only [matchPieces, List.any_eq_true, List.mem_range, Bool.and_eq_true,
      List.all_eq_true]
    refine ⟨a.length, by simp; omega, ⟨hfit, ?_⟩, ?_⟩
    · simpa using hall
    · simpa using hrest

theorem digit19_iff (c : Char) :
    digit19 c = true ↔ c ∈ ['1', '2', '3', '4', '5', '6', '7', '8', '9'] := by
  constructor
  · intro h
    simp only [digit19, Bool.and_eq_true, decide_eq_true_eq] at h
    obtain ⟨h1, h2⟩ := h
    have hc : c = Char.ofNat c.toNat := (Char.ofNat_toNat c).symm
    have h1' : 49 ≤ c.toNat := h1
    have h2' : c.toNat ≤ 57 := h2
    generalize c.toNat = n at hc h1' h2'
    subst hc
    interval_cases n <;> decide
  · intro h
    simp only [List.mem_cons, List.mem_singleton, List.not_mem_nil, or_false] at h
    rcases h with h | h | h | h | h | h | h | h | h <;> subst h <;> decide

theorem digit_iff (c : Char) :
    digit c = true ↔ c ∈ ['0', '1', '2', '3', '4', '5', '6', '7', '8', '9'] := by
  constructor
  · intro h
    simp only [digit, Bool.and_eq_true, decide_eq_true_eq] at h
    obtain ⟨h1, h2⟩ := h
    have hc : c = Char.ofNat c.toNat := (Char.ofNat_toNat c).symm
    have h1' : 48 ≤ c.toNat := h1
    have h2' : c.toNat ≤ 57 := h2
    generalize c.toNat = n at hc h1' h2'
    subst hc
    interval_cases n <;> decide
  · intro h
    simp only [List.mem_cons, List.mem_singleton, List.not_mem_nil, or_false] at h
    rcases h with h | h | h | h | h | h | h | h | h | h <;> subst h <;> decide

theorem fits_one_iff (cls : Char → Bool) (a : List Char) :
    ((Piece.one cls).fits a.length = true ∧ ∀ c ∈ a, (Piece.one cls).cls c = true) ↔
      ∃ d, a = [d] ∧ cls d = true := by
  simp only [Piece.one, Piece.fits, Bool.and_eq_true, decide_eq_true_eq]
  constructor
  · rintro ⟨⟨h1, h2⟩, hall⟩
    match a, h1, h2, hall with
    | [d], _, _, hall => exact ⟨d, rfl, hall d (by simp)⟩
    | [], h1, _, _ => simp at h1
    | _ :: _ :: _, _, h2, _ => simp at h2
  · rintro ⟨d, rfl, hd⟩
    simpa using hd

theorem fits_plus_iff (cls : Char → Bool) (a : List Char) :
    (Piece.plus cls).fits a.length = true ↔ a ≠ [] := by
  cases a <;> simp [Piece.plus, Piece.fits]

theorem fits_optional_iff (cls : Char → Bool) (a : List Char) :
    ((Piece.optional cls).fits a.length = true ∧
        ∀ c ∈ a, (Piece.optional cls).cls c = true) ↔
      (a = [] ∨ ∃ d, a = [d] ∧ cls d = true) := by
  simp only [Piece.optional, Piece.fits, Bool.and_eq_true, decide_eq_true_eq]
  constructor
  · rintro ⟨⟨_, h2⟩, hall⟩
    match a, h2, hall with
    | [], _, _ => exact Or.inl rfl
    | [d], _, hall => exact Or.inr ⟨d, rfl, hall d (by simp)⟩
    | _ :: _ :: _, h2, _ => simp at h2
  · rintro (rfl | ⟨d, rfl, hd⟩)
    · simp
    · simpa using hd

theorem matchPieces_phoneRegex (s : List Char) :
    matchPieces phoneRegex s = true ↔ PhoneShape s := by
  unfold phoneRegex PhoneShape
  simp only [matchPieces_cons, matchPieces_nil]
  constructor
  · rintro ⟨a, b, rfl, hfa, hca, a1, b1, rfl, hfa1, hca1, a2, b2, rfl, hfa2, hca2, rfl⟩
    obtain ⟨d, rfl, hd⟩ := (fits_one_iff _ a1).1 ⟨hfa1, hca1⟩
    have hsign := (fits_optional_iff _ a).1 ⟨hfa, hca⟩
    simp only [Piece.between, Piece.fits, Bool.and_eq_true, decide_eq_true_eq] at hfa2 hca2
    refine ⟨a, d, a2, by simp, ?_, (digit19_iff d).1 hd, fun c hc => (digit_iff c).1 (hca2 c hc),
      hfa2.1, hfa2.2⟩
    rcases hsign with h | ⟨c, rfl, hc⟩
    · exact Or.inl h
    · right
      simp only [beq_iff_eq] at hc
      rw [hc]
  · rintro ⟨sign, d, ds, rfl, hsign, hd, hds, h3, h14⟩
    refine ⟨sign, d :: ds, rfl, ?_, ?_, [d], ds, rfl, ?_, ?_, ds, [], by simp, ?_, ?_, rfl⟩
    · rcases hsign with rfl | rfl <;> simp [Piece.optional, Piece.fits]
    · rcases hsign with rfl | rfl <;> simp [Piece.optional]
    · simp [Piece.one, Piece.fits]
    · intro c hc
      simp only [List.mem_singleton] at hc
      subst hc
      exact (digit19_iff c).2 hd
    · simp [Piece.between, Piece.fits, h3, h14]
    · intro c hc
      exact (digit_iff c).2 (hds c hc)

theorem notSpaceAt_iff (c : Char) :
    notSpaceAt c = true ↔ (isWhiteSpace c = false ∧ c ≠ '@') := by
  simp [notSpaceAt]

/-- List form of `EmailShape`. -/
theorem matchPieces_emailRegex (s : List Char) :
    matchPieces emailRegex s = true ↔
      ∃ l d t : List Char, s = l ++ '@' :: (d ++ '.' :: t) ∧
        (l ≠ [] ∧ ∀ c ∈ l, isWhiteSpace c = false ∧ c ≠ '@') ∧
        (d ≠ [] ∧ ∀ c ∈ d, isWhiteSpace c = false ∧ c ≠ '@') ∧
        (t ≠ [] ∧ ∀ c ∈ t, isWhiteSpace c = false ∧ c ≠ '@') := by
  unfold emailRegex
  simp only [matchPieces_cons, matchPieces_nil]
  constructor
  · rintro ⟨l, b, rfl, hfl, hcl, a1, b1, rfl, hf1, hc1, d, b2, rfl, hfd, hcd,
      a3, b3, rfl, hf3, hc3, t, b4, rfl, hft, hct, rfl⟩
    obtain ⟨x, rfl, hx⟩ := (fits_one_iff _ a1).1 ⟨hf1, hc1⟩
    obtain ⟨y, rfl, hy⟩ := (fits_one_iff _ a3).1 ⟨hf3, hc3⟩
    simp only [beq_iff_eq] at hx hy
    subst hx hy
    refine ⟨l, d, t, by simp, ⟨(fits_plus_iff _ l).1 hfl, fun c hc => (notSpaceAt_iff c).1 (hcl c hc)⟩,
      ⟨(fits_plus_iff _ d).1 hfd, fun c hc => (notSpaceAt_iff c).1 (hcd c hc)⟩,
      ⟨(fits_plus_iff _ t).1 hft, fun c hc => (notSpaceAt_iff c).1 (hct c hc)⟩⟩
  · rintro ⟨l, d, t, rfl, ⟨hl, hcl⟩, ⟨hd, hcd⟩, ⟨ht, hct⟩⟩
    refine ⟨l, _, rfl, (fits_plus_iff _ l).2 hl, fun c hc => (notSpaceAt_iff c).2 (hcl c hc),
      ['@'], _, rfl, by simp [Piece.one, Piece.fits], by simp [Piece.one],
      d, _, rfl, (fits_plus_iff _ d).2 hd, fun c hc => (notSpaceAt_iff c).2 (hcd c hc),
      ['.'], _, rfl, by simp [Piece.one, Piece.fits], by simp [Piece.one],
      t, [], by simp, (fits_plus_iff _ t).2 ht, fun c hc => (notSpaceAt_iff c).2 (hct c hc), rfl⟩

theorem emailShape_iff (e : String) : EmailShape e ↔ matchPieces emailRegex e.toList = true := by
  rw [matchPieces_emailRegex]
  constructor
  · rintro ⟨l, d, t, rfl, ⟨hl, hcl⟩, ⟨hd, hcd⟩, ⟨ht, hct⟩⟩
    refine ⟨l.toList, d.toList, t.toList, by simp [String.toList], ⟨?_, hcl⟩, ⟨?_, hcd⟩, ⟨?_, hct⟩⟩
    · intro h; exact hl (String.ext h)
    · intro h; exact hd (String.ext h)
    · intro h; exact ht (String.ext h)
  · rintro ⟨l, d, t, h, ⟨hl, hcl⟩, ⟨hd, hcd⟩, ⟨ht, hct⟩⟩
    refine ⟨String.mk l, String.mk d, String.mk t, ?_, ⟨?_, hcl⟩, ⟨?_, hcd⟩, ⟨?_, hct⟩⟩
    · apply String.ext
      simpa [String.toList] using h
    · intro h; exact hl (by simpa using congrArg String.toList h)
    · intro h; exact hd (by simpa using congrArg String.toList h)
    · intro h; exact ht (by simpa using congrArg String.toList h)

theorem removeAll_formatting (p : String) :
    (removeAll formatting p).toList = stripFormatting p := by
  simp only [removeAll, stripFormatting, String.toList]
  apply List.filter_congr
  intro c _
  simp only [formatting, Bool.not_or, List.mem_cons, List.mem_singleton, List.not_mem_nil,
    or_false, not_or, Bool.decide_and, decide_not, Bool.and_assoc]
  rfl

theorem phoneShape_digits (s : List Char) (h : PhoneShape s) :
    4 ≤ (s.filter digit).length ∧ (s.filter digit).length ≤ 15 ∧
      (s.filter digit).head? ≠ some '0' := by
  obtain ⟨sign, d, ds, rfl, hsign, hd, hds, h3, h14⟩ := h
  have hsg : sign.filter digit = [] := by
    rcases hsign with rfl | rfl
    · rfl
    · decide
  have hdd : digit d = true := by
    simp only [List.mem_cons, List.mem_singleton, List.not_mem_nil, or_false] at hd
    rcases hd with h | h | h | h | h | h | h | h | h <;> subst h <;> decide
  have hdz : d ≠ '0' := by
    intro h0
    subst h0
    revert hd
    decide
  have hfd : ds.filter digit = ds :=
    List.filter_eq_self.2 fun c hc => (digit_iff c).2 (hds c hc)
  have hall : (sign ++ d :: ds).filter digit = d :: ds := by
    rw [List.filter_append, hsg, List.filter_cons_of_pos hdd, hfd]
    rfl
  rw [hall]
  refine ⟨by simp; omega, by simp; omega, ?_⟩
  simpa using hdz

/-- C1, as amended: after every whitespace character of the class `\s`, every hyphen and
every parenthesis is removed, `isValidPhone` (server and client copies) accepts exactly an
optional leading `+`, one digit 1-9 and 3 to 14 further decimal digits, that is 4 to 15
digits whose first is not zero; the examples of the claim come out as stated. -/
theorem isValidPhone_iff_shape :
    (∀ p : String,
      (Server.isValidPhone p = true ↔ PhoneShape (stripFormatting p)) ∧
      Client.isValidPhone p = Server.isValidPhone p ∧
      (Server.isValidPhone p = true →
        4 ≤ ((stripFormatting p).filter digit).length ∧
        ((stripFormatting p).filter digit).length ≤ 15 ∧
        ((stripFormatting p).filter digit).head? ≠ some '0')) ∧
    Server.isValidPhone "+12025550123" = true ∧
    Server.isValidPhone "(202) 555-0123" = true ∧
    Server.isValidPhone "123" = false ∧
    Server.isValidPhone "0123456" = false ∧
    Server.isValidPhone "1234567890123456" = false ∧
    Server.isValidPhone "not-a-phone" = false := by
  refine ⟨fun p => ?_, by decide, by decide, by decide, by decide, by decide, by decide⟩
  have key : Server.isValidPhone p = true ↔ PhoneShape (stripFormatting p) := by
    unfold Server.isValidPhone test
    rw [removeAll_formatting, matchPieces_phoneRegex]
  exact ⟨key, rfl, fun h => phoneShape_digits _ (key.1 h)⟩

/-- C1, as stated, fails: with only the space character, the hyphen and the parentheses
removed, `"1\t234"` still holds a tab and has not the phone shape, yet the code, which
removes every `\s` character, accepts it. -/
theorem isValidPhone_tab_counterexample :
    ¬ (Server.isValidPhone "1\t234" = true ↔ PhoneShape (stripSpaceHyphenParen "1\t234")) := by
  intro h
  have h1 : PhoneShape (stripSpaceHyphenParen "1\t234") := h.1 (by decide)
  rw [← matchPieces_phoneRegex] at h1
  revert h1
  decide

theorem count_at_part (l : List Char) (h : ∀ c ∈ l, isWhiteSpace c = false ∧ c ≠ '@') :
    l.count '@' = 0 := by
  rw [List.count_eq_zero]
  intro hm
  exact (h _ hm).2 rfl

/-- C2: `isValidEmail` (server and client copies) accepts exactly the strings
`l + "@" + d + "." + t` whose parts `l`, `d`, `t` are non-empty and hold neither a
whitespace character nor `@`; an accepted email has exactly one `@`, no whitespace, and a
`.` after the `@` that neither follows the `@` directly nor ends the string. -/
theorem isValidEmail_iff_split (e : String) :
    (Server.isValidEmail e = true ↔ EmailShape e) ∧
    Client.isValidEmail e = Server.isValidEmail e ∧
    (Server.isValidEmail e = true →
      e.toList.count '@' = 1 ∧ (∀ c ∈ e.toList, isWhiteSpace c = false) ∧
      ∃ pre mid post : List Char,
        e.toList = pre ++ '@' :: (mid ++ '.' :: post) ∧ mid ≠ [] ∧ post ≠ []) := by
  refine ⟨(emailShape_iff e).symm, rfl, fun h => ?_⟩
  obtain ⟨l, d, t, he, ⟨_, hcl⟩, ⟨hd, hcd⟩, ⟨ht, hct⟩⟩ := (matchPieces_emailRegex _).1 h
  refine ⟨?_, ?_, l, d, t, he, hd, ht⟩
  · rw [he]
    simp [List.count_append, List.count_cons, count_at_part l hcl, count_at_part d hcd,
      count_at_part t hct]
  · intro c hc
    rw [he] at hc
    simp only [List.mem_append, List.mem_cons] at hc
    rcases hc with hc | rfl | hc | rfl | hc
    · exact (hcl c hc).1
    · decide
    · exact (hcd c hc).1
    · decide
    · exact (hct c hc).1

/-! ## Queries -/

theorem selectIdByEmail_eq_none (db : Db) (email : String) :
    db.selectIdByEmail email = none ↔ ∀ c ∈ db.rows, c.email ≠ email := by
  simp [Db.selectIdByEmail, List.find?_eq_none]

theorem selectIdByEmailExcept_eq_none (db : Db) (email : String) (id : Option Nat) :
    db.selectIdByEmailExcept email id = none ↔
      ∀ c ∈ db.rows, some c.id ≠ id → c.email ≠ email := by
  simp only [Db.selectIdByEmailExcept, Option.map_eq_none', List.find?_eq_none,
    Bool.and_eq_true, beq_iff_eq, bne_iff_ne, not_and, not_not]
  constructor
  · intro h c hc hid he
    exact hid (h c hc he)
  · intro h c hc he
    by_contra hid
    exact h c hc hid he

theorem selectById_eq_none (db : Db) (id : Nat) :
    db.selectById id = none ↔ ∀ c ∈ db.rows, c.id ≠ id := by
  simp [Db.selectById, List.find?_eq_none]

theorem changes_eq_zero (db : Db) (id : Nat) :
    (db.rows.filter fun c => c.id == id).length = 0 ↔ ∀ c ∈ db.rows, c.id ≠ id := by
  simp [List.filter_eq_nil_iff]

theorem update_changes_eq_zero (db : Db) (id : Option Nat) :
    (db.rows.filter fun c => some c.id == id).length = 0 ↔ ∀ c ∈ db.rows, some c.id ≠ id := by
  simp [List.filter_eq_nil_iff]

theorem validation_required (b : ContactData)
    (h : b.firstName = "" ∨ b.lastName = "" ∨ b.address = "" ∨ b.email = "" ∨ b.phone = "") :
    Server.validation b = some ⟨400, .error "All fields are required"⟩ := by
  unfold Server.validation
  rw [if_pos]
  simpa [or_assoc] using h

/-! ## Required fields -/

/-- The Create and Update handlers answer 400 "All fields are required", leaving the table
as it was, whenever one of the five fields is the empty string. -/
theorem empty_field_rejected (rt : Runtime) (db : Db) (now : Nat) (id : String)
    (b : ContactData)
    (h : b.firstName = "" ∨ b.lastName = "" ∨ b.address = "" ∨ b.email = "" ∨ b.phone = "") :
    Server.postContact db now b = (db, ⟨400, .error "All fields are required"⟩) ∧
    Server.putContact rt db id b = (db, ⟨400, .error "All fields are required"⟩) := by
  have hv := validation_required b h
  constructor
  · unfold Server.postContact
    rw [hv]
  · unfold Server.putContact
    rw [hv]

/-- C3 fails on the code: a first name of three spaces is empty after trimming, and the
client trims it and asks for the field, yet the server, which tests the raw string,
answers 201 on Create and 200 on Update, not the required-field error, and writes the
row. -/
theorem whitespace_field_accepted :
    (∀ c ∈ ({ ann with firstName := "   " } : ContactData).firstName.toList,
      isWhiteSpace c = true) ∧
    Server.postContact Db.empty 0 { ann with firstName := "   " } =
      (⟨[⟨1, "   ", "Lee", "1 Main St", "ann@example.com", "+12025550123", 0⟩], 1⟩,
       ⟨201, .contact 1 { ann with firstName := "   " }⟩) ∧
    Server.putContact sampleRuntime ⟨[annRow], 1⟩ "1" { ann with firstName := "   " } =
      (⟨[⟨1, "   ", "Lee", "1 Main St", "ann@example.com", "+12025550123", 0⟩], 1⟩,
       ⟨200, .updated (some 1) { ann with firstName := "   " }⟩) ∧
    (Server.postContact Db.empty 0 { ann with firstName := "   " }).2 ≠
      ⟨400, .error "All fields are required"⟩ ∧
    (Server.putContact sampleRuntime ⟨[annRow], 1⟩ "1" { ann with firstName := "   " }).2 ≠
      ⟨400, .error "All fields are required"⟩ := by
  decide

/-! ## Uniqueness of emails -/

theorem postContact_rows (db : Db) (now : Nat) (b : ContactData) :
    (Server.postContact db now b).1 = db ∨
      ((∀ c ∈ db.rows, c.email ≠ b.email) ∧
        (Server.postContact db now b).1 =
          ⟨db.rows ++ [⟨db.nextId, b.firstName, b.lastName, b.address, b.email, b.phone, now⟩],
            db.nextId⟩) := by
  unfold Server.postContact
  cases Server.validation b with
  | some res => exact Or.inl rfl
  | none =>
    cases h : db.selectIdByEmail b.email with
    | some i => exact Or.inl rfl
    | none => exact Or.inr ⟨(selectIdByEmail_eq_none db b.email).1 h, rfl⟩

theorem putContact_rows (rt : Runtime) (db : Db) (id : String) (b : ContactData) :
    (Server.putContact rt db id b).1 = db ∨
      ((∀ c ∈ db.rows, some c.id ≠ rt.rowid id → c.email ≠ b.email) ∧
        (Server.putContact rt db id b).1 =
          ⟨db.rows.map fun c => if some c.id == rt.rowid id then c.set b else c, db.seq⟩) := by
  unfold Server.putContact
  cases Server.validation b with
  | some res => exact Or.inl rfl
  | none =>
    cases h : db.selectIdByEmailExcept b.email (rt.rowid id) with
    | some i => exact Or.inl rfl
    | none =>
      refine Or.inr ⟨(selectIdByEmailExcept_eq_none db b.email (rt.rowid id)).1 h, ?_⟩
      simp only [Db.update]
      split <;> rfl

theorem deleteContact_rows (db : Db) (id : Nat) :
    (Server.deleteContact db id).1 = ⟨db.rows.filter fun c => !(c.id == id), db.seq⟩ := by
  simp only [Server.deleteContact, Db.delete]
  split <;> rfl

theorem step_emailsUnique (rt : Runtime) (db : Db) (r : Server.Request)
    (h : EmailsUnique db) : EmailsUnique (Server.step rt db r) := by
  cases r with
  | create now b =>
    rcases postContact_rows db now b with hs | ⟨hfree, hs⟩
    · simpa only [Server.step, hs] using h
    · simp only [Server.step, hs]
      intro x hx y hy hid
      simp only [List.mem_append, List.mem_singleton] at hx hy
      rcases hx with hx | rfl <;> rcases hy with hy | rfl
      · exact h x hx y hy hid
      · exact hfree x hx
      · exact fun he => hfree y hy he.symm
      · exact absurd rfl hid
  | update id b =>
    rcases putContact_rows rt db id b with hs | ⟨hfree, hs⟩
    · simpa only [Server.step, hs] using h
    · simp only [Server.step, hs]
      intro x hx y hy hid
      simp only [List.mem_map] at hx hy
      obtain ⟨x0, hx0, rfl⟩ := hx
      obtain ⟨y0, hy0, rfl⟩ := hy
      by_cases hxi : some x0.id = rt.rowid id <;> by_cases hyi : some y0.id = rt.rowid id
      · have hxy : x0.id = y0.id := Option.some.inj (hxi.trans hyi.symm)
        simp [hxi, hyi, Contact.set, hxy] at hid
      · simp only [hxi, hyi, beq_self_eq_true, if_true, beq_iff_eq, if_false, Contact.set]
        exact fun he => hfree y0 hy0 hyi he.symm
      · simp only [hxi, hyi, beq_self_eq_true, if_true, beq_iff_eq, if_false, Contact.set]
        exact hfree x0 hx0 hxi
      · simp only [hxi, hyi, beq_iff_eq, if_false] at hid ⊢
        exact h x0 hx0 y0 hy0 hid
  | delete id =>
    simp only [Server.step, deleteContact_rows]
    intro x hx y hy hid
    exact h x (List.mem_filter.1 hx).1 y (List.mem_filter.1 hy).1 hid

theorem run_emailsUnique (rt : Runtime) (reqs : List Server.Request) (db : Db)
    (h : EmailsUnique db) : EmailsUnique (Server.run rt db reqs) := by
  induction reqs generalizing db with
  | nil => exact h
  | cons r rs ih => exact ih (Server.step rt db r) (step_emailsUnique rt db r h)

/-- C4: starting from the empty table, after any finite sequence of Create, Update and
Delete requests served one after the other, no two stored contacts with different ids
have the same email string, whatever SQLite and `parseInt` make of the route strings. -/
theorem emails_unique_reachable (rt : Runtime) (reqs : List Server.Request) :
    EmailsUnique (Server.run rt Db.empty reqs) :=
  run_emailsUnique rt reqs Db.empty (by intro a ha; cases ha)

/-! ## Create, Update, Delete, Get -/

theorem le_foldl_max (rows : List Contact) (m : Nat) :
    m ≤ rows.foldl (fun m c => max m c.id) m ∧
      ∀ c ∈ rows, c.id ≤ rows.foldl (fun m c => max m c.id) m := by
  induction rows generalizing m with
  | nil => simp
  | cons r rs ih =>
    simp only [List.foldl_cons, List.mem_cons, forall_eq_or_imp]
    have h := ih (max m r.id)
    exact ⟨le_trans (le_max_left _ _) h.1, le_trans (le_max_right _ _) h.1, h.2⟩

theorem id_lt_nextId (db : Db) (c : Contact) (hc : c ∈ db.rows) : c.id < db.nextId := by
  have h := (le_foldl_max db.rows 0).2 c hc
  simp only [Db.nextId, Db.maxId]
  omega

/-- C5: when the body passes validation and some stored contact has the body's email,
Create answers 400 "Email already exists" and the table is unchanged. -/
theorem create_duplicate_email (db : Db) (now : Nat) (b : ContactData)
    (hv : Server.validation b = none) (hdup : ∃ c ∈ db.rows, c.email = b.email) :
    Server.postContact db now b = (db, ⟨400, .error "Email already exists"⟩) := by
  unfold Server.postContact
  rw [hv]
  cases h : db.selectIdByEmail b.email with
  | some i => rfl
  | none =>
    obtain ⟨c, hc, he⟩ := hdup
    exact absurd he ((selectIdByEmail_eq_none db b.email).1 h c hc)

theorem create_duplicate_email_witness :
    (Server.postContact Db.empty 0 ann).2 = ⟨201, .contact 1 ann⟩ ∧
    Server.postContact (Server.postContact Db.empty 0 ann).1 5 ann =
      ((Server.postContact Db.empty 0 ann).1, ⟨400, .error "Email already exists"⟩) :=
  ⟨by decide,
   create_duplicate_email (Server.postContact Db.empty 0 ann).1 5 ann (by decide)
     ⟨⟨1, "Ann", "Lee", "1 Main St", "ann@example.com", "+12025550123", 0⟩, by decide, by decide⟩⟩

/-- C6: for a body that passes validation and a route string that SQLite compares equal to
the id of a stored contact, Update answers 400 "Email already exists" and leaves the
table unchanged when a stored contact with another id has the body's email, and answers
200 with `parseInt` of the route string and the five fields, the row of that id
overwritten with the five fields and every other row kept, when no contact with another
id has it, as when the email is the one already stored under that id. -/
theorem update_email_uniqueness (rt : Runtime) (db : Db) (route : String) (id : Nat)
    (b : ContactData) (hr : rt.rowid route = some id)
    (hv : Server.validation b = none) (hid : ∃ c ∈ db.rows, c.id = id) :
    ((∃ c ∈ db.rows, c.id ≠ id ∧ c.email = b.email) →
      Server.putContact rt db route b = (db, ⟨400, .error "Email already exists"⟩)) ∧
    ((∀ c ∈ db.rows, c.id ≠ id → c.email ≠ b.email) →
      Server.putContact rt db route b =
        (⟨db.rows.map fun c =>
            if c.id == id then
              ⟨c.id, b.firstName, b.lastName, b.address, b.email, b.phone, c.created_at⟩
            else c, db.seq⟩,
         ⟨200, .updated (rt.parseInt route) b⟩)) := by
  have hne : ∀ c : Contact, some c.id ≠ some id ↔ c.id ≠ id := fun c => by simp
  constructor
  · rintro ⟨c, hc, hcne, he⟩
    unfold Server.putContact
    rw [hv, hr]
    cases h : db.selectIdByEmailExcept b.email (some id) with
    | some i => rfl
    | none =>
      exact absurd he
        ((selectIdByEmailExcept_eq_none db b.email (some id)).1 h c hc ((hne c).2 hcne))
  · intro hfree
    unfold Server.putContact
    rw [hv, hr, (selectIdByEmailExcept_eq_none db b.email (some id)).2
      fun c hc h => hfree c hc ((hne c).1 h)]
    have hch : ¬ (db.rows.filter fun c => some c.id == some id).length = 0 := by
      rw [update_changes_eq_zero]
      obtain ⟨c, hc, hci⟩ := hid
      exact fun hall => hall c hc (by rw [hci])
    have hmap : (db.rows.map fun c => if some c.id == some id then c.set b else c) =
        db.rows.map fun c =>
          if c.id == id then
            ⟨c.id, b.firstName, b.lastName, b.address, b.email, b.phone, c.created_at⟩
          else c := by
      apply List.map_congr_left
      intro c _
      by_cases hc : c.id = id <;> simp [hc, Contact.set]
    simp only [Db.update]
    rw [hmap, if_neg (by rw [beq_iff_eq]; exact hch)]

theorem update_email_uniqueness_witness :
    Server.putContact sampleRuntime twoContacts "2" ann =
      (twoContacts, ⟨400, .error "Email already exists"⟩) ∧
    Server.putContact sampleRuntime twoContacts "20e-1" { ann with email := "bob@example.com" } =
      (⟨[annRow, ⟨2, "Ann", "Lee", "1 Main St", "bob@example.com", "+12025550123", 3⟩], 2⟩,
       ⟨200, .updated (some 20) { ann with email := "bob@example.com" }⟩) :=
  ⟨(update_email_uniqueness sampleRuntime twoContacts "2" 2 ann (by decide) (by decide)
      ⟨bobRow, by decide, by decide⟩).1 ⟨annRow, by decide, by decide, by decide⟩,
   (update_email_uniqueness sampleRuntime twoContacts "20e-1" 2
      { ann with email := "bob@example.com" } (by decide) (by decide)
      ⟨bobRow, by decide, by decide⟩).2 (by decide)⟩

/-- C7, as amended: for a body that passes validation and a route string that SQLite
compares equal to the id of no stored contact, Update answers 404 "Contact not found" when
no stored contact has the body's email and 400 "Email already exists" when some stored
contact has it, and leaves the table unchanged either way. -/
theorem update_missing_id (rt : Runtime) (db : Db) (route : String) (b : ContactData)
    (hv : Server.validation b = none) (hid : ∀ c ∈ db.rows, some c.id ≠ rt.rowid route) :
    ((∀ c ∈ db.rows, c.email ≠ b.email) →
      Server.putContact rt db route b = (db, ⟨404, .error "Contact not found"⟩)) ∧
    ((∃ c ∈ db.rows, c.email = b.email) →
      Server.putContact rt db route b = (db, ⟨400, .error "Email already exists"⟩)) := by
  constructor
  · intro hfree
    unfold Server.putContact
    rw [hv, (selectIdByEmailExcept_eq_none db b.email (rt.rowid route)).2
      fun c hc _ => hfree c hc]
    have hch : (db.rows.filter fun c => some c.id == rt.rowid route).length = 0 :=
      (update_changes_eq_zero db (rt.rowid route)).2 hid
    have hmap :
        (db.rows.map fun c => if some c.id == rt.rowid route then c.set b else c) =
          db.rows := by
      conv_rhs => rw [← List.map_id db.rows]
      apply List.map_congr_left
      intro c hc
      simp [hid c hc]
    simp only [Db.update, hch, hmap]
    rfl
  · rintro ⟨c, hc, he⟩
    unfold Server.putContact
    rw [hv]
    cases h : db.selectIdByEmailExcept b.email (rt.rowid route) with
    | some i => rfl
    | none =>
      exact absurd he
        ((selectIdByEmailExcept_eq_none db b.email (rt.rowid route)).1 h c hc (hid c hc))

theorem update_missing_id_witness :
    Server.putContact sampleRuntime twoContacts "7" { ann with email := "cy@example.com" } =
      (twoContacts, ⟨404, .error "Contact not found"⟩) ∧
    Server.putContact sampleRuntime twoContacts "7" ann =
      (twoContacts, ⟨400, .error "Email already exists"⟩) :=
  ⟨(update_missing_id sampleRuntime twoContacts "7" { ann with email := "cy@example.com" }
      (by decide) (by decide)).1 (by decide),
   (update_missing_id sampleRuntime twoContacts "7" ann (by decide) (by decide)).2
      ⟨annRow, by decide, by decide⟩⟩

/-- C7, as stated, fails: the route `7` is the id of no stored contact and the body passes
validation, but its email is a stored contact's, and Update answers 400 "Email already
exists", not 404. -/
theorem update_missing_id_duplicate :
    Server.validation ann = none ∧
    (∀ c ∈ twoContacts.rows, some c.id ≠ sampleRuntime.rowid "7") ∧
    Server.putContact sampleRuntime twoContacts "7" ann =
      (twoContacts, ⟨400, .error "Email already exists"⟩) ∧
    (Server.putContact sampleRuntime twoContacts "7" ann).2 ≠
      ⟨404, .error "Contact not found"⟩ := by
  decide

/-- C8: for a body that passes validation and whose email no stored contact has, Create
answers 201 with an id that no stored contact had and the five input fields, and Get on
that id in the resulting table answers 200 with the row of that id, the five input fields
and the clock reading of the insertion. -/
theorem create_get_roundtrip (db : Db) (now : Nat) (b : ContactData)
    (hv : Server.validation b = none) (hfree : ∀ c ∈ db.rows, c.email ≠ b.email) :
    (Server.postContact db now b).2 = ⟨201, .contact db.nextId b⟩ ∧
    (∀ c ∈ db.rows, c.id ≠ db.nextId) ∧
    Server.getContact (Server.postContact db now b).1 db.nextId =
      ⟨200, .row ⟨db.nextId, b.firstName, b.lastName, b.address, b.email, b.phone, now⟩⟩ := by
  have hfresh : ∀ c ∈ db.rows, c.id ≠ db.nextId := fun c hc =>
    Nat.ne_of_lt (id_lt_nextId db c hc)
  have hpost : Server.postContact db now b =
      (⟨db.rows ++ [⟨db.nextId, b.firstName, b.lastName, b.address, b.email, b.phone, now⟩],
          db.nextId⟩, ⟨201, .contact db.nextId b⟩) := by
    unfold Server.postContact
    rw [hv, (selectIdByEmail_eq_none db b.email).2 hfree]
    rfl
  refine ⟨by rw [hpost], hfresh, ?_⟩
  rw [hpost]
  have hnone : db.rows.find? (fun c => c.id == db.nextId) = none := by
    rw [List.find?_eq_none]
    intro c hc
    simpa using hfresh c hc
  simp [Server.getContact, Db.selectById, List.find?_append, hnone]

theorem create_get_roundtrip_witness :
    (Server.postContact twoContacts 9 { ann with email := "cy@example.com" }).2 =
      ⟨201, .contact 3 { ann with email := "cy@example.com" }⟩ ∧
    (∀ c ∈ twoContacts.rows, c.id ≠ 3) ∧
    Server.getContact
        (Server.postContact twoContacts 9 { ann with email := "cy@example.com" }).1 3 =
      ⟨200, .row ⟨3, "Ann", "Lee", "1 Main St", "cy@example.com", "+12025550123", 9⟩⟩ :=
  create_get_roundtrip twoContacts 9 { ann with email := "cy@example.com" } (by decide)
    (by decide)

/-- C9: when a contact with the id is stored, Delete answers 200, the table keeps exactly
the rows of every other id, unchanged and in order, and a following Get on the id answers
404; when no contact with the id is stored, Delete answers 404 and the table is
unchanged. -/
theorem delete_then_get (db : Db) (id : Nat) :
    ((∃ c ∈ db.rows, c.id = id) →
      Server.deleteContact db id =
        (⟨db.rows.filter fun c => c.id ≠ id, db.seq⟩,
         ⟨200, .message "Contact deleted successfully"⟩) ∧
      (∀ c, c ∈ (Server.deleteContact db id).1.rows ↔ c ∈ db.rows ∧ c.id ≠ id) ∧
      Server.getContact (Server.deleteContact db id).1 id =
        ⟨404, .error "Contact not found"⟩) ∧
    ((∀ c ∈ db.rows, c.id ≠ id) →
      Server.deleteContact db id = (db, ⟨404, .error "Contact not found"⟩)) := by
  have hfilter : (db.rows.filter fun c => !(c.id == id)) = db.rows.filter fun c => c.id ≠ id := by
    apply List.filter_congr
    intro c _
    by_cases h : c.id = id <;> simp [h]
  constructor
  · rintro ⟨c, hc, hci⟩
    have hch : ¬ (db.rows.filter fun c => c.id == id).length = 0 := by
      rw [changes_eq_zero]
      exact fun hall => hall c hc hci
    have hdel : Server.deleteContact db id =
        (⟨db.rows.filter fun c => c.id ≠ id, db.seq⟩,
         ⟨200, .message "Contact deleted successfully"⟩) := by
      simp only [Server.deleteContact, Db.delete, beq_iff_eq, hch, if_false, hfilter]
    refine ⟨hdel, ?_, ?_⟩
    · intro x
      rw [hdel]
      simp [List.mem_filter]
    · rw [hdel]
      have hnone : (db.rows.filter fun c => c.id ≠ id).find? (fun c => c.id == id) = none := by
        rw [List.find?_eq_none]
        intro x hx
        simpa using (List.mem_filter.1 hx).2
      simp only [Server.getContact, Db.selectById, hnone]
  · intro hall
    have hch : (db.rows.filter fun c => c.id == id).length = 0 := (changes_eq_zero db id).2 hall
    have hkeep : (db.rows.filter fun c => !(c.id == id)) = db.rows := by
      rw [List.filter_eq_self]
      intro c hc
      simpa using hall c hc
    simp only [Server.deleteContact, Db.delete, hch, hkeep]
    rfl

theorem delete_then_get_witness :
    (Server.deleteContact twoContacts 1 =
        (⟨[bobRow], 2⟩, ⟨200, .message "Contact deleted successfully"⟩) ∧
      (∀ c, c ∈ (Server.deleteContact twoContacts 1).1.rows ↔
        c ∈ twoContacts.rows ∧ c.id ≠ 1) ∧
      Server.getContact (Server.deleteContact twoContacts 1).1 1 =
        ⟨404, .error "Contact not found"⟩) ∧
    Server.deleteContact twoContacts 7 = (twoContacts, ⟨404, .error "Contact not found"⟩) :=
  ⟨(delete_then_get twoContacts 1).1 ⟨annRow, by decide, by decide⟩,
   (delete_then_get twoContacts 7).2 (by decide)⟩

/-! ## Client and server validation -/

/-- C10: for every record of five string fields, the client's `validateForm` returns true
exactly when the server's validation (the required-field check, then `isValidEmail`, then
`isValidPhone`) raises no error. -/
theorem validateForm_iff_server (data : ContactData) :
    Client.validateForm data = true ↔ Server.validation data = none := by
  have he : Client.isValidEmail data.email = Server.isValidEmail data.email := rfl
  have hp : Client.isValidPhone data.phone = Server.isValidPhone data.phone := rfl
  unfold Client.validateForm Server.validation
  rw [he, hp]
  by_cases h1 : data.firstName = "" <;> by_cases h2 : data.lastName = "" <;>
    by_cases h3 : data.address = "" <;> by_cases h4 : data.email = "" <;>
    by_cases h5 : data.phone = "" <;>
    cases hE : Server.isValidEmail data.email <;>
    cases hP : Server.isValidPhone data.phone <;>
    simp [h1, h2, h3, h4, h5]


end ContactManager
